import Mathlib

/-!
Shallow embedding of the cache/storage core of the steam-recommender
repository (`src/lib/cache.ts`, `src/lib/db.ts`, `src/lib/gameStatus.ts`).

Tables of the SQLite schema (`db.ts`) are modelled as association lists keyed
by their primary keys; timestamps are seconds since an arbitrary epoch, and
SQLite's `datetime('now', '-X unit')` comparisons become Nat comparisons.
`INSERT ... ON CONFLICT DO UPDATE` becomes `upsertRow`, `INSERT OR IGNORE`
becomes `insertIgnore`, and `better-sqlite3` transactions become either a
plain function (when atomicity is not at issue) or an explicit operation list
run by `runTransaction`, which commits all steps or rolls back to the initial
state (the library's documented all-or-nothing semantics).
-/

namespace SteamRec

/-- SQL `INSERT ... VALUES ... ON CONFLICT(key) DO UPDATE`: if the key is
present the row is updated in place via `upd`, otherwise `ins` is appended. -/
def upsertRow {κ α : Type} [DecidableEq κ] (k : κ) (ins : α) (upd : α → α) :
    List (κ × α) → List (κ × α)
  | [] => [(k, ins)]
  | (k', v) :: rest =>
      if k' = k then (k', upd v) :: rest else (k', v) :: upsertRow k ins upd rest

/-- SQL `INSERT OR IGNORE`: append the row unless the key is already present. -/
def insertIgnore {κ α : Type} [DecidableEq κ] (k : κ) (v : α) :
    List (κ × α) → List (κ × α)
  | [] => [(k, v)]
  | (k', v') :: rest =>
      if k' = k then (k', v') :: rest else (k', v') :: insertIgnore k v rest

/-- SQL `INSERT OR IGNORE` on a table whose primary key is the whole row. -/
def insertIgnoreKey {κ : Type} [DecidableEq κ] (k : κ) : List κ → List κ
  | [] => [k]
  | k' :: rest => if k' = k then k' :: rest else k' :: insertIgnoreKey k rest

/-- SQL `SELECT ... WHERE key = ?` on a table keyed by `κ`. -/
def alookup {κ α : Type} [DecidableEq κ] (k : κ) : List (κ × α) → Option α
  | [] => none
  | (k', v) :: rest => if k' = k then some v else alookup k rest

-- ─── Table row types (schema of db.ts) ───────────────────────────────────────

/-- Row of `user_profiles`. -/
structure ProfileRow where
  displayName : String
  avatarUrl : Option String
  profileUrl : Option String
  lastSyncedAt : Nat
deriving DecidableEq, Repr

/-- Row of `user_games` (key `(steam_id, app_id)` lives in the table). -/
structure UserGameRow where
  playtimeForever : Nat
  playtime2weeks : Nat
  lastPlayedAt : Option Nat
  syncedAt : Nat
deriving DecidableEq, Repr

/-- Row of `games`. -/
structure GameRow where
  name : String
  gtype : Option String
  shortDescription : Option String
  headerImage : Option String
  developers : Option (List String)
  publishers : Option (List String)
  metacriticScore : Option Nat
  releaseDate : Option String
  price : Option String
  lastFetchedAt : Nat
deriving DecidableEq, Repr

/-- Row of `recommendations` (surrogate `id`, append-only table). -/
structure RecRow where
  id : Nat
  steamId : String
  sourceAppId : Option Nat
  recType : String
  resultJson : String
  createdAt : Nat
  expiresAt : Nat
deriving DecidableEq, Repr

/-- Row of `game_statuses` (key `(steam_id, app_id)` lives in the table). -/
structure StatusRow where
  name : String
  status : String
  updatedAt : String
deriving DecidableEq, Repr

/-- The relational store created by `getDb` in `db.ts`.  `game_genres` rows
are pure keys `(app_id, genre)`; `game_tags` maps `(app_id, tag)` to `rank`.
`recNextId` models the `AUTOINCREMENT` counter of `recommendations`. -/
structure Db where
  userProfiles : List (String × ProfileRow) := []
  userGames : List ((String × Nat) × UserGameRow) := []
  games : List (Nat × GameRow) := []
  gameGenres : List (Nat × String) := []
  gameTags : List ((Nat × String) × Int) := []
  recommendations : List RecRow := []
  recNextId : Nat := 1
  gameStatuses : List ((String × Nat) × StatusRow) := []
deriving DecidableEq, Repr

def emptyDb : Db := {}

-- ─── User profile cache (cache.ts lines 49-98) ──────────────────────────────

/-- `cacheUserProfile`: upsert into `user_profiles`, always refreshing
`last_synced_at` to now. -/
def cacheUserProfile (steamId : String) (displayName : String)
    (avatarUrl profileUrl : Option String) (now : Nat) (db : Db) : Db :=
  let row : ProfileRow :=
    { displayName := displayName, avatarUrl := avatarUrl,
      profileUrl := profileUrl, lastSyncedAt := now }
  { db with userProfiles := upsertRow steamId row (fun _ => row) db.userProfiles }

/-- Result record of `getCachedProfile` (interface `CachedUserProfile`). -/
structure CachedUserProfile where
  steamId : String
  displayName : String
  avatarUrl : Option String
  profileUrl : Option String
  lastSyncedAt : Nat
deriving DecidableEq, Repr

/-- `getCachedProfile`: the row for `steamId`, but only when
`datetime(last_synced_at) > datetime('now','-24 hours')`, i.e.
`now < last_synced_at + 86400` seconds; otherwise `none`. -/
def getCachedProfile (steamId : String) (now : Nat) (db : Db) :
    Option CachedUserProfile :=
  match alookup steamId db.userProfiles with
  | none => none
  | some r =>
      if now < r.lastSyncedAt + 86400 then
        some { steamId := steamId, displayName := r.displayName,
               avatarUrl := r.avatarUrl, profileUrl := r.profileUrl,
               lastSyncedAt := r.lastSyncedAt }
      else none

-- ─── User library cache (cache.ts lines 102-183) ────────────────────────────

/-- Element of the `games` argument of `cacheUserLibrary`. -/
structure GameInput where
  appid : Nat
  name : String
  playtime_forever : Nat
  playtime_2weeks : Option Nat
  rtime_last_played : Option Nat
deriving DecidableEq, Repr

/-- The `user_games` row written for one library entry
(`playtime_2weeks ?? 0`, `rtime_last_played ?? null`, `synced_at = now`). -/
def userGameRowOf (g : GameInput) (now : Nat) : UserGameRow :=
  { playtimeForever := g.playtime_forever,
    playtime2weeks := g.playtime_2weeks.getD 0,
    lastPlayedAt := g.rtime_last_played,
    syncedAt := now }

/-- The name-only `games` stub inserted by `upsertGameName`. -/
def gameStubOf (name : String) (now : Nat) : GameRow :=
  { name := name, gtype := none, shortDescription := none, headerImage := none,
    developers := none, publishers := none, metacriticScore := none,
    releaseDate := none, price := none, lastFetchedAt := now }

/-- The `upsertUserGame` prepared statement of `cacheUserLibrary`. -/
def upsertUserGame (steamId : String) (g : GameInput) (now : Nat) (db : Db) : Db :=
  { db with userGames :=
      (upsertRow (steamId, g.appid) (userGameRowOf g now)
        (fun _ => userGameRowOf g now) db.userGames) }

/-- The `upsertGameName` prepared statement: insert a name-only `games` stub;
on conflict the stored name is kept unless it is empty
(`CASE WHEN games.name = '' OR games.name IS NULL THEN excluded.name
ELSE games.name END`). -/
def upsertGameName (appId : Nat) (name : String) (now : Nat) (db : Db) : Db :=
  { db with games :=
      (upsertRow appId (gameStubOf name now)
        (fun old => if old.name = "" then { old with name := name } else old)
        db.games) }

/-- The statements executed inside the `cacheUserLibrary` transaction, in
order: `DELETE FROM user_games WHERE steam_id = ?`, then per game the
`upsertUserGame` and `upsertGameName` statements. -/
def libraryBody (steamId : String) (games : List GameInput) (now : Nat) :
    List (Db → Db) :=
  (fun db => { db with
      userGames := db.userGames.filter (fun p => decide (p.1.1 ≠ steamId)) }) ::
    games.flatMap (fun g =>
      [upsertUserGame steamId g now, upsertGameName g.appid g.name now])

/-- `better-sqlite3` transaction semantics with an optional injected failure:
`failAfter = some k` aborts at statement index `k` (when `k` is within the
body) and rolls back to the initial state; otherwise every statement commits. -/
def runTransaction (ops : List (Db → Db)) (failAfter : Option Nat) (db : Db) : Db :=
  match failAfter with
  | none => ops.foldl (fun d f => f d) db
  | some k => if k < ops.length then db else ops.foldl (fun d f => f d) db

/-- `cacheUserLibrary`: the transaction runs to completion. -/
def cacheUserLibrary (steamId : String) (games : List GameInput) (now : Nat)
    (db : Db) : Db :=
  runTransaction (libraryBody steamId games now) none db

/-- The cumulative effect of the per-game `upsertUserGame` statements on the
`user_games` table. -/
def userGamesFold (steamId : String) (now : Nat) (gs : List GameInput)
    (l : List ((String × Nat) × UserGameRow)) :
    List ((String × Nat) × UserGameRow) :=
  gs.foldl (fun acc g =>
    upsertRow (steamId, g.appid) (userGameRowOf g now)
      (fun _ => userGameRowOf g now) acc) l

/-- The cumulative effect of the per-game `upsertGameName` statements on the
`games` table. -/
def gamesFold (now : Nat) (gs : List GameInput) (l : List (Nat × GameRow)) :
    List (Nat × GameRow) :=
  gs.foldl (fun acc g =>
    upsertRow g.appid (gameStubOf g.name now)
      (fun old => if old.name = "" then { old with name := g.name } else old)
      acc) l

/-- Result record of `getCachedLibrary` (interface `CachedUserGame`). -/
structure CachedUserGame where
  appId : Nat
  playtimeForever : Nat
  playtime2weeks : Nat
  lastPlayedAt : Option Nat
  syncedAt : Nat
deriving DecidableEq, Repr

/-- `getCachedLibrary`: `none` unless some row for the user has
`datetime(synced_at) > datetime('now','-5 minutes')`, i.e.
`now < synced_at + 300`; on a hit, every row for the user is returned
regardless of its own age. -/
def getCachedLibrary (steamId : String) (now : Nat) (db : Db) :
    Option (List CachedUserGame) :=
  if db.userGames.any
      (fun p => decide (p.1.1 = steamId) && decide (now < p.2.syncedAt + 300)) then
    some ((db.userGames.filter (fun p => decide (p.1.1 = steamId))).map
      (fun p =>
        { appId := p.1.2, playtimeForever := p.2.playtimeForever,
          playtime2weeks := p.2.playtime2weeks,
          lastPlayedAt := p.2.lastPlayedAt, syncedAt := p.2.syncedAt }))
  else none

-- ─── Game details cache (cache.ts lines 187-258) ────────────────────────────

/-- The `details` argument of `cacheGameDetails`: the fields of the Steam
store payload that the function reads.  `metacritic` keeps only `score`,
`release_date` keeps `(coming_soon, date)`, `price_overview` keeps
`final_formatted`, genre entries are `(id, description)` pairs. -/
structure GameDetailsInput where
  name : String
  gtype : Option String := none
  short_description : Option String := none
  header_image : Option String := none
  developers : Option (List String) := none
  publishers : Option (List String) := none
  metacritic : Option Nat := none
  release_date : Option (Bool × String) := none
  price_overview : Option String := none
  genres : Option (List (String × String)) := none
deriving DecidableEq, Repr

/-- The `games` row written by the metadata upsert of `cacheGameDetails`:
every column, `name` included, is set from the argument
(`name = excluded.name`, ..., `last_fetched_at = datetime('now')`). -/
def gameRowOfDetails (details : GameDetailsInput) (now : Nat) : GameRow :=
  { name := details.name,
    gtype := details.gtype,
    shortDescription := details.short_description,
    headerImage := details.header_image,
    developers := details.developers,
    publishers := details.publishers,
    metacriticScore := details.metacritic,
    releaseDate := (details.release_date.map Prod.snd),
    price := details.price_overview,
    lastFetchedAt := now }

/-- `cacheGameDetails(appId, details, tags?)`, the body of its transaction:
upsert the metadata row (all columns overwritten on conflict), always delete
the entity's genres and re-insert the supplied ones when non-empty, and —
only when `tags` is supplied *and* non-empty — delete and re-insert the
entity's tags. -/
def cacheGameDetails (appId : Nat) (details : GameDetailsInput)
    (tags : Option (List (String × Int))) (now : Nat) (db : Db) : Db :=
  let row := gameRowOfDetails details now
  let db1 : Db := { db with games := upsertRow appId row (fun _ => row) db.games }
  let genresCleared := db1.gameGenres.filter (fun p => decide (p.1 ≠ appId))
  let db2 : Db :=
    { db1 with gameGenres :=
        (match details.genres with
         | some gs =>
             if gs ≠ [] then
               gs.foldl (fun acc g => insertIgnoreKey (appId, g.2) acc) genresCleared
             else genresCleared
         | none => genresCleared) }
  let db3 : Db :=
    match tags with
    | some ts =>
        if ts ≠ [] then
          let cleared := db2.gameTags.filter (fun p => decide (p.1.1 ≠ appId))
          { db2 with gameTags :=
              (ts.foldl (fun acc t => insertIgnore (appId, t.1) t.2 acc) cleared) }
        else db2
    | none => db2
  db3

-- ─── Recommendation cache (cache.ts lines 312-364) ──────────────────────────

/-- The `recommendations` row inserted by `cacheRecommendation`:
`created_at = now`, `expires_at = now + ttlHours hours`. -/
def newRecRow (steamId : String) (sourceAppId : Option Nat)
    (recType resultJson : String) (ttlHours now rowId : Nat) : RecRow :=
  { id := rowId, steamId := steamId, sourceAppId := sourceAppId,
    recType := recType, resultJson := resultJson, createdAt := now,
    expiresAt := now + ttlHours * 3600 }

/-- `cacheRecommendation`: always insert a fresh row (append, never update)
with `created_at = now` and `expires_at = now + ttlHours hours`. -/
def cacheRecommendation (steamId : String) (sourceAppId : Option Nat)
    (recType : String) (resultJson : String) (ttlHours : Nat) (now : Nat)
    (db : Db) : Db :=
  { db with
    recommendations := db.recommendations ++
      [newRecRow steamId sourceAppId recType resultJson ttlHours now db.recNextId],
    recNextId := db.recNextId + 1 }

/-- The source predicate of the `getCachedRecommendation` query,
`source_app_id IS ? OR (source_app_id = ? AND ? IS NOT NULL)`: the first
disjunct is SQLite's null-safe equality; the second is three-valued `=`
(true only when both sides are non-null and equal) conjoined with the
parameter being non-null. -/
def srcMatches (rowSrc qSrc : Option Nat) : Bool :=
  decide (rowSrc = qSrc) ||
    ((match rowSrc, qSrc with
      | some a, some b => decide (a = b)
      | _, _ => false) && qSrc.isSome)

/-- The rows satisfying the `WHERE` clause of `getCachedRecommendation`:
exact `steam_id` and `rec_type`, source as `srcMatches`, and
`datetime(expires_at) > datetime('now')`. -/
def recMatches (steamId : String) (sourceAppId : Option Nat) (recType : String)
    (now : Nat) (db : Db) : List RecRow :=
  db.recommendations.filter (fun r =>
    decide (r.steamId = steamId) && srcMatches r.sourceAppId sourceAppId &&
      decide (r.recType = recType) && decide (now < r.expiresAt))

/-- `ORDER BY created_at DESC LIMIT 1`: the first row carrying the maximal
`created_at` among the matches. -/
def pickLatest : List RecRow → Option RecRow
  | [] => none
  | r :: rest =>
      match pickLatest rest with
      | none => some r
      | some b => if r.createdAt < b.createdAt then some b else some r

/-- `getCachedRecommendation`: the most recent non-expired row matching the
criteria, or `none`. -/
def getCachedRecommendation (steamId : String) (sourceAppId : Option Nat)
    (recType : String) (now : Nat) (db : Db) : Option RecRow :=
  pickLatest (recMatches steamId sourceAppId recType now db)

-- ─── Legacy migration (gameStatus.ts) ───────────────────────────────────────

/-- One record of the legacy JSON store:
`{ appid, name, status, updatedAt }`.  `updatedAt := ""` models a missing /
falsy field, which `migrateFromJson` replaces with the current time. -/
structure LegacyEntry where
  appid : Nat
  name : String
  status : String
  updatedAt : String
deriving DecidableEq, Repr

/-- The parsed legacy JSON store: user → (appid-or-name key → entry). -/
abbrev LegacyStore : Type := List (String × List (String × LegacyEntry))

/-- The `CHECK(status IN ('played','liked','not_interested'))` constraint of
the `game_statuses` table in `db.ts`. -/
def validStatus (s : String) : Bool :=
  s == "played" || s == "liked" || s == "not_interested"

/-- The `game_statuses` row built for a legacy entry:
`updatedAt: entry.updatedAt || new Date().toISOString()` — an empty (falsy)
field is replaced with the current time. -/
def legacyRowOf (e : LegacyEntry) (nowStr : String) : StatusRow :=
  { name := e.name, status := e.status,
    updatedAt := if e.updatedAt = "" then nowStr else e.updatedAt }

/-- The `INSERT OR REPLACE INTO game_statuses` statement of
`migrateFromJson`: raises (models the SQLite constraint error) when the
status violates the check constraint, otherwise replaces by primary key
`(steam_id, app_id)`. -/
def insertLegacyStatus (steamId : String) (e : LegacyEntry) (nowStr : String)
    (tbl : List ((String × Nat) × StatusRow)) :
    Except Unit (List ((String × Nat) × StatusRow)) :=
  if validStatus e.status then
    .ok (upsertRow (steamId, e.appid) (legacyRowOf e nowStr)
      (fun _ => legacyRowOf e nowStr) tbl)
  else .error ()

/-- The body of the `migrate` transaction: insert every entry of every user,
stopping with an error (which aborts the whole transaction) at the first
constraint violation. -/
def runMigrate (store : LegacyStore) (nowStr : String)
    (tbl : List ((String × Nat) × StatusRow)) :
    Except Unit (List ((String × Nat) × StatusRow)) :=
  store.foldl
    (fun acc (user : String × List (String × LegacyEntry)) =>
      user.2.foldl
        (fun acc' entry => acc'.bind (insertLegacyStatus user.1 entry.2 nowStr))
        acc)
    (.ok tbl)

/-- The table produced by a *successful* run of the `migrate` transaction:
every entry of every user upserted in iteration order. -/
def runMigrateOk (store : LegacyStore) (nowStr : String)
    (tbl : List ((String × Nat) × StatusRow)) :
    List ((String × Nat) × StatusRow) :=
  store.foldl
    (fun acc (user : String × List (String × LegacyEntry)) =>
      user.2.foldl
        (fun acc' entry =>
          upsertRow (user.1, entry.2.appid) (legacyRowOf entry.2 nowStr)
            (fun _ => legacyRowOf entry.2 nowStr) acc')
        acc)
    tbl

/-- Process-wide state seen by the migration module: the once-per-process
flag, the legacy file (outer `Option`: existence; inner `Option`: whether its
contents parse as JSON), the `.bak` rename target, and the database. -/
structure ProcState where
  migrated : Bool := false
  legacyFile : Option (Option LegacyStore) := none
  legacyBak : Option (Option LegacyStore) := none
  db : Db := {}

/-- `migrateFromJson`: no-op when the legacy file is absent; a corrupt file
(parse failure) is caught and left in place; otherwise the transactional
load either commits wholly and renames the file to `.bak`, or (on any
constraint error) rolls back, is caught, and leaves everything untouched. -/
def migrateFromJson (nowStr : String) (s : ProcState) : ProcState :=
  match s.legacyFile with
  | none => s
  | some none => s
  | some (some store) =>
      match runMigrate store nowStr s.db.gameStatuses with
      | .error _ => s
      | .ok tbl =>
          { s with db := { s.db with gameStatuses := tbl },
                   legacyFile := none,
                   legacyBak := some (some store) }

/-- `ensureMigrated`: sets the one-time flag, then runs the migration; a
second call in the same process is a no-op. -/
def ensureMigrated (nowStr : String) (s : ProcState) : ProcState :=
  if s.migrated then s else migrateFromJson nowStr { s with migrated := true }

-- ─── Concrete states used when checking the claims ──────────────────────────

/-- A `games` row whose name is already the non-empty `"Half-Life"`. -/
def halfLifeRow : GameRow :=
  { name := "Half-Life", gtype := none, shortDescription := none,
    headerImage := none, developers := none, publishers := none,
    metacriticScore := none, releaseDate := none, price := none,
    lastFetchedAt := 0 }

/-- A store holding only the `"Half-Life"` metadata row for app id 1. -/
def c1Db : Db := { games := [(1, halfLifeRow)] }

/-- A store holding one profile row for user `"u"`, synced at time 0. -/
def profileDb : Db :=
  { userProfiles := [("u",
      { displayName := "d", avatarUrl := none, profileUrl := none,
        lastSyncedAt := 0 })] }

/-- A store with two library rows for user `"u"`: app 1 synced at time 0
(stale at `now = 400`) and app 2 synced at time 200 (fresh at `now = 400`). -/
def libDb : Db :=
  { userGames :=
      [(("u", 1),
        { playtimeForever := 10, playtime2weeks := 0, lastPlayedAt := none,
          syncedAt := 0 }),
       (("u", 2),
        { playtimeForever := 7, playtime2weeks := 3, lastPlayedAt := some 9,
          syncedAt := 200 })] }

/-- A store already holding one tag row for app id 1. -/
def tagDb : Db := { gameTags := [((1, "Indie"), 1)] }

/-- A legacy store holding one valid record (status `"played"`) and one
record violating the `game_statuses` check constraint (status `"bogus"`)
for the same user. -/
def c2Store : LegacyStore :=
  [("u",
    [("10", { appid := 10, name := "A", status := "played", updatedAt := "t" }),
     ("11", { appid := 11, name := "B", status := "bogus", updatedAt := "t" })])]

/-- Process state whose legacy file exists and parses to `c2Store`. -/
def c2State : ProcState := { legacyFile := some (some c2Store) }

/-- A legacy store whose single record is valid. -/
def c2OkStore : LegacyStore :=
  [("u",
    [("10", { appid := 10, name := "A", status := "liked", updatedAt := "" })])]

/-- Process state whose legacy file exists and parses to `c2OkStore`. -/
def c2OkState : ProcState := { legacyFile := some (some c2OkStore) }

/-- Process state whose legacy file exists but does not parse (corrupt). -/
def corruptState : ProcState := { legacyFile := some none }

-- ─── Helper lemmas ──────────────────────────────────────────────────────────

theorem alookup_upsertRow_self {κ α : Type} [DecidableEq κ]
    (k : κ) (ins : α) (upd : α → α) (l : List (κ × α)) :
    alookup k (upsertRow k ins upd l) =
      some (match alookup k l with | some v => upd v | none => ins) := by
  induction l with
  | nil => simp [upsertRow, alookup]
  | cons hd tl ih =>
      obtain ⟨k', v⟩ := hd
      by_cases h : k' = k
      · simp [upsertRow, alookup, h]
      · simp [upsertRow, alookup, h, ih]

theorem alookup_upsertRow_ne {κ α : Type} [DecidableEq κ]
    (k j : κ) (ins : α) (upd : α → α) (l : List (κ × α)) (hne : j ≠ k) :
    alookup j (upsertRow k ins upd l) = alookup j l := by
  have hkj : ∀ k' : κ, k' = k → ¬ k' = j := by
    intro k' hk hj
    exact hne (hj.symm.trans hk)
  induction l with
  | nil =>
      simp only [upsertRow, alookup]
      rw [if_neg (hkj k rfl)]
  | cons hd tl ih =>
      obtain ⟨k', v⟩ := hd
      by_cases h : k' = k
      · simp only [upsertRow, if_pos h, alookup]
        rw [if_neg (hkj k' h), if_neg (hkj k' h)]
      · simp only [upsertRow, if_neg h, alookup, ih]

theorem pickLatest_eq_none_iff (l : List RecRow) : pickLatest l = none ↔ l = [] := by
  cases l with
  | nil => simp [pickLatest]
  | cons r rest =>
      cases hr : pickLatest rest with
      | none => simp [pickLatest, hr]
      | some b =>
          simp only [pickLatest, hr]
          split <;> simp

theorem pickLatest_mem (l : List RecRow) (r : RecRow)
    (h : pickLatest l = some r) : r ∈ l := by
  induction l generalizing r with
  | nil => simp [pickLatest] at h
  | cons a rest ih =>
      cases hr : pickLatest rest with
      | none =>
          simp only [pickLatest, hr] at h
          obtain rfl : a = r := by injection h
          exact List.mem_cons_self _ _
      | some b =>
          simp only [pickLatest, hr] at h
          by_cases hc : a.createdAt < b.createdAt
          · rw [if_pos hc] at h
            obtain rfl : b = r := by injection h
            exact List.mem_cons_of_mem _ (ih _ hr)
          · rw [if_neg hc] at h
            obtain rfl : a = r := by injection h
            exact List.mem_cons_self _ _

theorem pickLatest_maximal (l : List RecRow) (r : RecRow)
    (h : pickLatest l = some r) : ∀ m ∈ l, m.createdAt ≤ r.createdAt := by
  induction l generalizing r with
  | nil => simp [pickLatest] at h
  | cons a rest ih =>
      intro m hm
      cases hr : pickLatest rest with
      | none =>
          simp only [pickLatest, hr] at h
          obtain rfl : a = r := by injection h
          have : rest = [] := (pickLatest_eq_none_iff rest).1 hr
          subst this
          rcases List.mem_cons.1 hm with rfl | hm'
          · exact le_refl _
          · simp at hm'
      | some b =>
          simp only [pickLatest, hr] at h
          rcases List.mem_cons.1 hm with rfl | hm'
          · by_cases hc : m.createdAt < b.createdAt
            · rw [if_pos hc] at h
              obtain rfl : b = r := by injection h
              exact le_of_lt hc
            · rw [if_neg hc] at h
              obtain rfl : m = r := by injection h
              exact le_refl _
          · by_cases hc : a.createdAt < b.createdAt
            · rw [if_pos hc] at h
              obtain rfl : b = r := by injection h
              exact ih _ hr m hm'
            · rw [if_neg hc] at h
              obtain rfl : a = r := by injection h
              exact le_trans (ih _ hr m hm') (not_lt.1 hc)

theorem srcMatches_iff (a b : Option Nat) : srcMatches a b = true ↔ a = b := by
  cases a <;> cases b <;> simp [srcMatches]

theorem mem_recMatches_iff (u : String) (src : Option Nat) (rt : String)
    (now : Nat) (db : Db) (r : RecRow) :
    r ∈ recMatches u src rt now db ↔
      r ∈ db.recommendations ∧ r.steamId = u ∧ r.sourceAppId = src ∧
        r.recType = rt ∧ now < r.expiresAt := by
  simp [recMatches, List.mem_filter, srcMatches_iff, and_assoc]

theorem insertIgnore_of_not_mem_keys {κ α : Type} [DecidableEq κ]
    (k : κ) (v : α) (l : List (κ × α)) (h : ∀ p ∈ l, p.1 ≠ k) :
    insertIgnore k v l = l ++ [(k, v)] := by
  induction l with
  | nil => rfl
  | cons hd tl ih =>
      obtain ⟨k', v'⟩ := hd
      have hk : k' ≠ k := h (k', v') (List.mem_cons_self _ _)
      simp only [insertIgnore, if_neg hk, List.cons_append, List.cons.injEq,
        true_and]
      exact ih (fun p hp => h p (List.mem_cons_of_mem _ hp))

theorem insertIgnoreKey_of_not_mem {κ : Type} [DecidableEq κ]
    (k : κ) (l : List κ) (h : ∀ p ∈ l, p ≠ k) :
    insertIgnoreKey k l = l ++ [k] := by
  induction l with
  | nil => rfl
  | cons hd tl ih =>
      have hk : hd ≠ k := h hd (List.mem_cons_self _ _)
      simp only [insertIgnoreKey, if_neg hk, List.cons_append, List.cons.injEq,
        true_and]
      exact ih (fun p hp => h p (List.mem_cons_of_mem _ hp))

theorem foldl_insertIgnore_tags (appId : Nat) (ts : List (String × Int))
    (l : List ((Nat × String) × Int))
    (h : ∀ t' ∈ ts.map Prod.fst, ∀ p ∈ l, p.1 ≠ (appId, t'))
    (hnd : (ts.map Prod.fst).Nodup) :
    ts.foldl (fun acc t => insertIgnore (appId, t.1) t.2 acc) l
      = l ++ ts.map (fun t => ((appId, t.1), t.2)) := by
  induction ts generalizing l with
  | nil => simp
  | cons t rest ih =>
      have hins : insertIgnore (appId, t.1) t.2 l = l ++ [((appId, t.1), t.2)] :=
        insertIgnore_of_not_mem_keys _ _ _
          (h t.1 (by simp))
      have hnd' : (rest.map Prod.fst).Nodup := (List.nodup_cons.1 hnd).2
      have hmem : t.1 ∉ rest.map Prod.fst := (List.nodup_cons.1 hnd).1
      have h' : ∀ t' ∈ rest.map Prod.fst, ∀ p ∈ l ++ [((appId, t.1), t.2)],
          p.1 ≠ (appId, t') := by
        intro t' ht' p hp
        rcases List.mem_append.1 hp with hp' | hp'
        · exact h t' (by simp [ht']) p hp'
        · simp only [List.mem_singleton] at hp'
          subst hp'
          intro hcontra
          simp only [Prod.mk.injEq] at hcontra
          exact hmem (hcontra.2 ▸ ht')
      calc (t :: rest).foldl (fun acc t => insertIgnore (appId, t.1) t.2 acc) l
          = rest.foldl (fun acc t => insertIgnore (appId, t.1) t.2 acc)
              (l ++ [((appId, t.1), t.2)]) := by rw [List.foldl_cons, hins]
        _ = (l ++ [((appId, t.1), t.2)]) ++
              rest.map (fun t => ((appId, t.1), t.2)) := ih _ h' hnd'
        _ = l ++ (t :: rest).map (fun t => ((appId, t.1), t.2)) := by
              simp [List.append_assoc]

theorem foldl_insertIgnoreKey_genres (appId : Nat)
    (gs : List (String × String)) (l : List (Nat × String))
    (h : ∀ d ∈ gs.map Prod.snd, ∀ p ∈ l, p ≠ (appId, d))
    (hnd : (gs.map Prod.snd).Nodup) :
    gs.foldl (fun acc g => insertIgnoreKey (appId, g.2) acc) l
      = l ++ gs.map (fun g => (appId, g.2)) := by
  induction gs generalizing l with
  | nil => simp
  | cons g rest ih =>
      have hins : insertIgnoreKey (appId, g.2) l = l ++ [(appId, g.2)] :=
        insertIgnoreKey_of_not_mem _ _ (h g.2 (by simp))
      have hnd' : (rest.map Prod.snd).Nodup := (List.nodup_cons.1 hnd).2
      have hmem : g.2 ∉ rest.map Prod.snd := (List.nodup_cons.1 hnd).1
      have h' : ∀ d ∈ rest.map Prod.snd, ∀ p ∈ l ++ [(appId, g.2)],
          p ≠ (appId, d) := by
        intro d hd p hp
        rcases List.mem_append.1 hp with hp' | hp'
        · exact h d (by simp [hd]) p hp'
        · simp only [List.mem_singleton] at hp'
          subst hp'
          intro hcontra
          simp only [Prod.mk.injEq, true_and] at hcontra
          exact hmem (hcontra ▸ hd)
      calc (g :: rest).foldl (fun acc g => insertIgnoreKey (appId, g.2) acc) l
          = rest.foldl (fun acc g => insertIgnoreKey (appId, g.2) acc)
              (l ++ [(appId, g.2)]) := by rw [List.foldl_cons, hins]
        _ = (l ++ [(appId, g.2)]) ++ rest.map (fun g => (appId, g.2)) :=
              ih _ h' hnd'
        _ = l ++ (g :: rest).map (fun g => (appId, g.2)) := by
              simp [List.append_assoc]

theorem cacheGameDetails_gameTags_some (appId : Nat)
    (details : GameDetailsInput) (ts : List (String × Int)) (now : Nat)
    (db : Db) :
    (cacheGameDetails appId details (some ts) now db).gameTags =
      if ts = [] then db.gameTags
      else
        ts.foldl (fun acc t => insertIgnore (appId, t.1) t.2 acc)
          (db.gameTags.filter (fun p => decide (p.1.1 ≠ appId))) := by
  unfold cacheGameDetails
  by_cases h : ts = [] <;> simp [h]

theorem cacheGameDetails_gameGenres (appId : Nat)
    (details : GameDetailsInput) (tags : Option (List (String × Int)))
    (now : Nat) (db : Db) :
    (cacheGameDetails appId details tags now db).gameGenres =
      match details.genres with
      | some gs =>
          if gs = [] then db.gameGenres.filter (fun p => decide (p.1 ≠ appId))
          else
            gs.foldl (fun acc g => insertIgnoreKey (appId, g.2) acc)
              (db.gameGenres.filter (fun p => decide (p.1 ≠ appId)))
      | none => db.gameGenres.filter (fun p => decide (p.1 ≠ appId)) := by
  unfold cacheGameDetails
  cases hg : details.genres with
  | none =>
      cases tags with
      | none => simp [hg]
      | some ts => by_cases h : ts = [] <;> simp [hg, h]
  | some gs =>
      cases tags with
      | none => by_cases hgs : gs = [] <;> simp [hg, hgs]
      | some ts =>
          by_cases hgs : gs = [] <;> by_cases h : ts = [] <;> simp [hg, hgs, h]

theorem cacheGameDetails_games_eq (appId : Nat) (details : GameDetailsInput)
    (tags : Option (List (String × Int))) (now : Nat) (db : Db) :
    (cacheGameDetails appId details tags now db).games =
      upsertRow appId (gameRowOfDetails details now)
        (fun _ => gameRowOfDetails details now) db.games := by
  unfold cacheGameDetails
  cases tags with
  | none => rfl
  | some ts =>
      by_cases h : ts = [] <;> simp [h]

-- ─── The claims ─────────────────────────────────────────────────────────────

/-- C1, counterexample: the claim says a stored non-empty name survives a
`cacheGameDetails` call with an empty name; on the store holding
`name = "Half-Life"` for app id 1, the call overwrites it with `""`. -/
theorem c1_counterexample :
    (alookup 1 (cacheGameDetails 1 { name := "" } none 5 c1Db).games).map
        GameRow.name = some "" ∧
      (alookup 1 (cacheGameDetails 1 { name := "" } none 5 c1Db).games).map
        GameRow.name ≠ some "Half-Life" := by
  constructor
  · rfl
  · decide

/-- C1, amended: `cacheGameDetails` applies no name protection at all — the
metadata upsert sets `name = excluded.name` unconditionally, so after any
call the stored name for the entity is exactly the supplied name, empty or
not.  (The empty-name protection of the spec exists only in
`upsertGameName`, the statement used by `cacheUserLibrary`.) -/
theorem c1_metadata_name_always_overwritten (appId : Nat)
    (details : GameDetailsInput) (tags : Option (List (String × Int)))
    (now : Nat) (db : Db) :
    (alookup appId (cacheGameDetails appId details tags now db).games).map
      GameRow.name = some details.name := by
  rw [cacheGameDetails_games_eq, alookup_upsertRow_self]
  cases alookup appId db.games <;> rfl

/-- C8: `getCachedProfile` returns the stored row exactly when
`now - last_synced_at < 24` hours (`now < last_synced_at + 86400` seconds);
past that window, and likewise when no row exists, it returns `none` —
an absent result, never an error. -/
theorem c8_profile_freshness (steamId : String) (now : Nat) (db : Db) :
    (∀ r : ProfileRow, alookup steamId db.userProfiles = some r →
      (now < r.lastSyncedAt + 86400 →
          getCachedProfile steamId now db =
            some { steamId := steamId, displayName := r.displayName,
                   avatarUrl := r.avatarUrl, profileUrl := r.profileUrl,
                   lastSyncedAt := r.lastSyncedAt }) ∧
      (¬ now < r.lastSyncedAt + 86400 →
          getCachedProfile steamId now db = none)) ∧
    (alookup steamId db.userProfiles = none →
      getCachedProfile steamId now db = none) := by
  constructor
  · intro r hr
    constructor <;> intro h <;> simp [getCachedProfile, hr, h]
  · intro h
    simp [getCachedProfile, h]

/-- C8 witness: on the concrete one-profile store, a read 10 seconds after
the sync returns the row, and a read 90000 seconds (25 h) after returns
`none`. -/
theorem c8_witness :
    getCachedProfile "u" 10 profileDb =
        some { steamId := "u", displayName := "d", avatarUrl := none,
               profileUrl := none, lastSyncedAt := 0 } ∧
      getCachedProfile "u" 90000 profileDb = none :=
  ⟨((c8_profile_freshness "u" 10 profileDb).1 _ rfl).1 (by decide),
   ((c8_profile_freshness "u" 90000 profileDb).1 _ rfl).2 (by decide)⟩

/-- C4: any row returned by `getCachedRecommendation` carries exactly the
queried `source_app_id` — a `none` query matches only `none` rows and a
`some a` query only `some a` rows — and in particular a general (no-source)
write is invisible to a per-entity read and vice versa. -/
theorem c4_null_source_isolation :
    (∀ (steamId : String) (src : Option Nat) (recType : String) (now : Nat)
        (db : Db) (r : RecRow),
        getCachedRecommendation steamId src recType now db = some r →
        r.sourceAppId = src) ∧
    (∀ (steamId payload : String) (now : Nat),
        getCachedRecommendation steamId (some 5) "general" now
          (cacheRecommendation steamId none "general" payload 12 now emptyDb)
            = none ∧
        getCachedRecommendation steamId none "general" now
          (cacheRecommendation steamId (some 5) "general" payload 12 now emptyDb)
            = none) := by
  constructor
  · intro u src rt now db r h
    exact ((mem_recMatches_iff u src rt now db r).1 (pickLatest_mem _ _ h)).2.2.1
  · intro u payload now
    constructor <;>
      simp [getCachedRecommendation, recMatches, cacheRecommendation, emptyDb,
        srcMatches, pickLatest, newRecRow]

/-- C4 witness: the two isolation reads at concrete inputs. -/
theorem c4_witness :
    getCachedRecommendation "u" (some 5) "general" 0
        (cacheRecommendation "u" none "general" "p" 12 0 emptyDb) = none ∧
      getCachedRecommendation "u" none "general" 0
        (cacheRecommendation "u" (some 5) "general" "p" 12 0 emptyDb) = none :=
  c4_null_source_isolation.2 "u" "p" 0

/-- C5: `getCachedRecommendation` returns `none` exactly when no matching
row is unexpired; a returned row is a matching unexpired row with maximal
`created_at`; a row written with a positive `ttl_hours` is found immediately
after the write, and once `now` reaches `created_at + ttl` hours the written
row itself is never the one returned. -/
theorem c5_recommendation_freshness :
    (∀ (u : String) (src : Option Nat) (rt : String) (now : Nat) (db : Db),
        getCachedRecommendation u src rt now db = none ↔
          recMatches u src rt now db = []) ∧
    (∀ (u : String) (src : Option Nat) (rt : String) (now : Nat) (db : Db)
        (r : RecRow),
        getCachedRecommendation u src rt now db = some r →
          r ∈ recMatches u src rt now db ∧
            ∀ m ∈ recMatches u src rt now db, m.createdAt ≤ r.createdAt) ∧
    (∀ (u : String) (src : Option Nat) (rt json : String) (h now : Nat)
        (db : Db), 0 < h →
        getCachedRecommendation u src rt now
          (cacheRecommendation u src rt json h now db) ≠ none) ∧
    (∀ (u : String) (src : Option Nat) (rt json : String) (h now now' : Nat)
        (db : Db) (r : RecRow),
        now + h * 3600 ≤ now' →
        getCachedRecommendation u src rt now'
            (cacheRecommendation u src rt json h now db) = some r →
        r ≠ newRecRow u src rt json h now db.recNextId) := by
  refine ⟨fun u src rt now db => pickLatest_eq_none_iff _, ?_, ?_, ?_⟩
  · intro u src rt now db r h
    exact ⟨pickLatest_mem _ _ h, pickLatest_maximal _ _ h⟩
  · intro u src rt json h now db hh hnone
    have hmem : newRecRow u src rt json h now db.recNextId ∈
        recMatches u src rt now (cacheRecommendation u src rt json h now db) := by
      rw [mem_recMatches_iff]
      refine ⟨?_, rfl, rfl, rfl, ?_⟩
      · simp [cacheRecommendation]
      · have : 0 < h * 3600 := Nat.mul_pos hh (by norm_num)
        simp only [newRecRow]
        omega
    have hnil : recMatches u src rt now
        (cacheRecommendation u src rt json h now db) = [] :=
      (pickLatest_eq_none_iff _).1 hnone
    rw [hnil] at hmem
    simp at hmem
  · intro u src rt json h now now' db r hle hget heq
    have hm := pickLatest_mem _ _ hget
    have hexp := ((mem_recMatches_iff _ _ _ _ _ _).1 hm).2.2.2.2
    rw [heq] at hexp
    simp only [newRecRow] at hexp
    omega

/-- C5 witness: a row written with `ttl_hours = 1` at time 0 is found by a
read at time 0. -/
theorem c5_witness :
    (0 : Nat) < 1 ∧
      getCachedRecommendation "u" none "general" 0
        (cacheRecommendation "u" none "general" "p" 1 0 emptyDb) ≠ none :=
  ⟨by decide,
   c5_recommendation_freshness.2.2.1 "u" none "general" "p" 1 0 emptyDb
     (by decide)⟩

/-- C7: `getCachedLibrary` is a hit exactly when some row for the user was
synced within the last 5 minutes (`now < synced_at + 300`); on a hit it
returns every row of that user, each stale row included. -/
theorem c7_library_freshness (steamId : String) (now : Nat) (db : Db) :
    ((getCachedLibrary steamId now db).isSome ↔
      ∃ p ∈ db.userGames, p.1.1 = steamId ∧ now < p.2.syncedAt + 300) ∧
    (∀ l, getCachedLibrary steamId now db = some l →
      ∀ p ∈ db.userGames, p.1.1 = steamId →
        ({ appId := p.1.2, playtimeForever := p.2.playtimeForever,
           playtime2weeks := p.2.playtime2weeks,
           lastPlayedAt := p.2.lastPlayedAt,
           syncedAt := p.2.syncedAt } : CachedUserGame) ∈ l) := by
  constructor
  · unfold getCachedLibrary
    split
    next hany =>
      simp only [Option.isSome_some, true_iff]
      rw [List.any_eq_true] at hany
      obtain ⟨p, hp, hcond⟩ := hany
      simp only [Bool.and_eq_true, decide_eq_true_eq] at hcond
      exact ⟨p, hp, hcond⟩
    next hany =>
      constructor
      · intro hs
        simp at hs
      · rintro ⟨p, hp, h1, h2⟩
        exact absurd (List.any_eq_true.2 ⟨p, hp, by simp [h1, h2]⟩) hany
  · intro l hl p hp hps
    unfold getCachedLibrary at hl
    split at hl
    · injection hl with hl'
      subst hl'
      exact List.mem_map.2 ⟨p, List.mem_filter.2 ⟨hp, by simp [hps]⟩, rfl⟩
    · exact absurd hl (by simp)

/-- C7 witness: at time 400 on `libDb` (app 2 fresh, app 1 stale), the read
hits and the stale app-1 row is still part of the returned library. -/
theorem c7_witness :
    ({ appId := 1, playtimeForever := 10, playtime2weeks := 0,
       lastPlayedAt := none, syncedAt := 0 } : CachedUserGame) ∈
      [({ appId := 1, playtimeForever := 10, playtime2weeks := 0,
          lastPlayedAt := none, syncedAt := 0 } : CachedUserGame),
       { appId := 2, playtimeForever := 7, playtime2weeks := 3,
         lastPlayedAt := some 9, syncedAt := 200 }] :=
  (c7_library_freshness "u" 400 libDb).2 _ rfl
    (("u", 1),
      { playtimeForever := 10, playtime2weeks := 0, lastPlayedAt := none,
        syncedAt := 0 })
    (by decide) rfl

theorem alookup_upsertRow_isSome {κ α : Type} [DecidableEq κ]
    (k j : κ) (ins : α) (upd : α → α) (l : List (κ × α)) :
    (alookup j (upsertRow k ins upd l)).isSome ↔
      j = k ∨ (alookup j l).isSome := by
  by_cases h : j = k
  · subst h
    rw [alookup_upsertRow_self]
    simp
  · rw [alookup_upsertRow_ne _ _ _ _ _ h]
    simp [h]

theorem libraryFlatMap_eq (steamId : String) (now : Nat) (gs : List GameInput) :
    ∀ db : Db,
      List.foldl (fun d f => f d) db
          (gs.flatMap (fun g =>
            [upsertUserGame steamId g now, upsertGameName g.appid g.name now]))
        = { db with userGames := userGamesFold steamId now gs db.userGames,
                    games := gamesFold now gs db.games } := by
  induction gs with
  | nil => intro db; rfl
  | cons g rest ih =>
      intro db
      show List.foldl (fun d f => f d) db
          (upsertUserGame steamId g now :: upsertGameName g.appid g.name now ::
            rest.flatMap (fun g =>
              [upsertUserGame steamId g now, upsertGameName g.appid g.name now]))
        = _
      rw [List.foldl_cons, List.foldl_cons]
      exact ih _

theorem cacheUserLibrary_eq (steamId : String) (gs : List GameInput)
    (now : Nat) (db : Db) :
    cacheUserLibrary steamId gs now db =
      { db with
        userGames := userGamesFold steamId now gs
          (db.userGames.filter (fun p => decide (p.1.1 ≠ steamId))),
        games := gamesFold now gs db.games } := by
  unfold cacheUserLibrary runTransaction libraryBody
  rw [List.foldl_cons]
  exact libraryFlatMap_eq steamId now gs _

theorem gamesFold_preserve (now : Nat) (gs : List GameInput)
    (l : List (Nat × GameRow)) (a : Nat) (r : GameRow)
    (hl : alookup a l = some r) (hne : r.name ≠ "") :
    alookup a (gamesFold now gs l) = some r := by
  induction gs generalizing l with
  | nil => exact hl
  | cons g rest ih =>
      show alookup a (gamesFold now rest _) = some r
      apply ih
      by_cases h : a = g.appid
      · subst h
        rw [alookup_upsertRow_self]
        simp only [hl]
        simp [hne]
      · rw [alookup_upsertRow_ne _ _ _ _ _ h]
        exact hl

theorem userGamesFold_keys (steamId : String) (now : Nat)
    (gs : List GameInput) (a : Nat) :
    ∀ l : List ((String × Nat) × UserGameRow),
      (alookup (steamId, a) (userGamesFold steamId now gs l)).isSome ↔
        a ∈ gs.map GameInput.appid ∨ (alookup (steamId, a) l).isSome := by
  induction gs with
  | nil => simp [userGamesFold]
  | cons g rest ih =>
      intro l
      show (alookup (steamId, a) (userGamesFold steamId now rest _)).isSome ↔ _
      rw [ih, alookup_upsertRow_isSome]
      simp only [Prod.mk.injEq, true_and, List.map_cons, List.mem_cons]
      tauto

theorem alookup_deleted_userGames (steamId : String) (a : Nat)
    (l : List ((String × Nat) × UserGameRow)) :
    alookup (steamId, a) (l.filter (fun p => decide (p.1.1 ≠ steamId))) = none := by
  induction l with
  | nil => rfl
  | cons hd tl ih =>
      rw [List.filter_cons]
      by_cases h : hd.1.1 ≠ steamId
      · rw [if_pos (by simpa using h)]
        have hne : hd.1 ≠ (steamId, a) := by
          intro hc
          exact h (by rw [hc])
        calc alookup (steamId, a) (hd :: tl.filter _)
            = alookup (steamId, a) (tl.filter _) := by
              obtain ⟨hk, hv⟩ := hd
              simp only [alookup]
              rw [if_neg (by simpa using hne)]
          _ = none := ih
      · rw [if_neg (by simpa using h)]
        exact ih

/-- C3, counterexample: the claim requires every provided tags argument to
be set-replaced, but a provided-yet-empty list skips the delete
(`if (tags && tags.length > 0)`), so the pre-existing tag row of `tagDb`
survives a call that supplied the empty tag set. -/
theorem c3_counterexample :
    (cacheGameDetails 1 { name := "x" } (some []) 0 tagDb).gameTags
        = [((1, "Indie"), 1)] ∧
      (cacheGameDetails 1 { name := "x" } (some []) 0 tagDb).gameTags ≠ [] := by
  constructor
  · rfl
  · decide

/-- C3, amended: when the provided tags list is non-empty (with distinct tag
names) the stored tag rows for the entity become exactly the supplied
`(tag, rank)` pairs; when tags is provided but *empty* the previous tag rows
are left untouched; the genre rows are always set-replaced to exactly the
supplied genre descriptions (empty when no genres are supplied). -/
theorem c3_tag_genre_set_replace (appId : Nat) (details : GameDetailsInput)
    (ts : List (String × Int)) (now : Nat) (db : Db) :
    (ts ≠ [] → (ts.map Prod.fst).Nodup →
      (cacheGameDetails appId details (some ts) now db).gameTags.filter
          (fun p => decide (p.1.1 = appId))
        = ts.map (fun t => ((appId, t.1), t.2))) ∧
    (ts = [] →
      (cacheGameDetails appId details (some ts) now db).gameTags
        = db.gameTags) ∧
    (∀ gs, details.genres = some gs → (gs.map Prod.snd).Nodup →
      (cacheGameDetails appId details (some ts) now db).gameGenres.filter
          (fun p => decide (p.1 = appId))
        = gs.map (fun g => (appId, g.2))) ∧
    (details.genres = none →
      (cacheGameDetails appId details (some ts) now db).gameGenres.filter
          (fun p => decide (p.1 = appId)) = []) := by
  have hclearTags : ∀ t' : String,
      ∀ p ∈ db.gameTags.filter (fun p => decide (p.1.1 ≠ appId)),
        p.1 ≠ (appId, t') := by
    intro t' p hp hcontra
    have := (List.mem_filter.1 hp).2
    rw [decide_eq_true_eq] at this
    exact this (by rw [hcontra])
  have hclearGenres : ∀ d : String,
      ∀ p ∈ db.gameGenres.filter (fun p => decide (p.1 ≠ appId)),
        p ≠ (appId, d) := by
    intro d p hp hcontra
    have := (List.mem_filter.1 hp).2
    rw [decide_eq_true_eq] at this
    exact this (by rw [hcontra])
  have hdropTags :
      (db.gameTags.filter (fun p => decide (p.1.1 ≠ appId))).filter
        (fun p => decide (p.1.1 = appId)) = [] := by
    rw [List.filter_eq_nil_iff]
    intro p hp
    have := (List.mem_filter.1 hp).2
    rw [decide_eq_true_eq] at this
    simp [this]
  have hdropGenres :
      (db.gameGenres.filter (fun p => decide (p.1 ≠ appId))).filter
        (fun p => decide (p.1 = appId)) = [] := by
    rw [List.filter_eq_nil_iff]
    intro p hp
    have := (List.mem_filter.1 hp).2
    rw [decide_eq_true_eq] at this
    simp [this]
  refine ⟨?_, ?_, ?_, ?_⟩
  · intro hne hnd
    rw [cacheGameDetails_gameTags_some, if_neg hne,
      foldl_insertIgnore_tags appId ts _ (fun t' _ => hclearTags t') hnd,
      List.filter_append, hdropTags, List.nil_append,
      List.filter_eq_self.2]
    intro p hp
    obtain ⟨t, _, rfl⟩ := List.mem_map.1 hp
    simp
  · intro he
    rw [cacheGameDetails_gameTags_some, if_pos he]
  · intro gs hg hnd
    rw [cacheGameDetails_gameGenres]
    simp only [hg]
    by_cases hgs : gs = []
    · subst hgs
      simp only [if_pos rfl, List.map_nil]
      exact hdropGenres
    · rw [if_neg hgs,
        foldl_insertIgnoreKey_genres appId gs _ (fun d _ => hclearGenres d) hnd,
        List.filter_append, hdropGenres, List.nil_append,
        List.filter_eq_self.2]
      intro p hp
      obtain ⟨g, _, rfl⟩ := List.mem_map.1 hp
      simp
  · intro hg
    rw [cacheGameDetails_gameGenres]
    simp only [hg]
    exact hdropGenres

/-- C3 witness: replacing app 1's tags in `tagDb` with the two-tag list
yields exactly those two rows for app 1, and a same-call genre list is
stored exactly as well. -/
theorem c3_witness :
    (((cacheGameDetails 1 { name := "x", genres := some [("1", "Action")] }
          (some [("Roguelike", 2), ("Indie", 1)]) 0 tagDb).gameTags.filter
        (fun p => decide (p.1.1 = 1)))
      = [((1, "Roguelike"), 2), ((1, "Indie"), 1)]) ∧
    (((cacheGameDetails 1 { name := "x", genres := some [("1", "Action")] }
          (some [("Roguelike", 2), ("Indie", 1)]) 0 tagDb).gameGenres.filter
        (fun p => decide (p.1 = 1)))
      = [(1, "Action")]) :=
  ⟨(c3_tag_genre_set_replace 1 { name := "x", genres := some [("1", "Action")] }
      [("Roguelike", 2), ("Indie", 1)] 0 tagDb).1 (by decide) (by decide),
   ((c3_tag_genre_set_replace 1 { name := "x", genres := some [("1", "Action")] }
      [("Roguelike", 2), ("Indie", 1)] 0 tagDb).2.2.1 [("1", "Action")] rfl
      (by decide))⟩

/-- C6: the `cacheUserLibrary` transaction (delete-all-for-user, then the
per-game inserts) is all-or-nothing — a failure injected at any statement
index leaves the store exactly as before, a completed run gives the full
replacement — after a completed run the user's `user_games` keys are exactly
the input app ids, and any subsequent `getCachedLibrary` sees either the old
state's answer or the new state's answer, never a mixture. -/
theorem c6_library_replace_atomicity (steamId : String) (gs : List GameInput)
    (now : Nat) (db : Db) :
    (∀ failAfter : Nat,
      runTransaction (libraryBody steamId gs now) (some failAfter) db = db ∨
      runTransaction (libraryBody steamId gs now) (some failAfter) db =
        cacheUserLibrary steamId gs now db) ∧
    (∀ a : Nat,
      (alookup (steamId, a)
          (cacheUserLibrary steamId gs now db).userGames).isSome ↔
        a ∈ gs.map GameInput.appid) ∧
    (∀ (failAfter : Nat) (t : Nat),
      getCachedLibrary steamId t
          (runTransaction (libraryBody steamId gs now) (some failAfter) db) =
        getCachedLibrary steamId t db ∨
      getCachedLibrary steamId t
          (runTransaction (libraryBody steamId gs now) (some failAfter) db) =
        getCachedLibrary steamId t (cacheUserLibrary steamId gs now db)) := by
  have hdicho : ∀ failAfter : Nat,
      runTransaction (libraryBody steamId gs now) (some failAfter) db = db ∨
      runTransaction (libraryBody steamId gs now) (some failAfter) db =
        cacheUserLibrary steamId gs now db := by
    intro k
    by_cases h : k < (libraryBody steamId gs now).length
    · left
      show (if k < (libraryBody steamId gs now).length then db
        else List.foldl (fun d f => f d) db (libraryBody steamId gs now)) = db
      rw [if_pos h]
    · right
      show (if k < (libraryBody steamId gs now).length then db
        else List.foldl (fun d f => f d) db (libraryBody steamId gs now)) =
          cacheUserLibrary steamId gs now db
      rw [if_neg h]
      rfl
  refine ⟨hdicho, ?_, ?_⟩
  · intro a
    rw [cacheUserLibrary_eq]
    show (alookup (steamId, a) (userGamesFold steamId now gs _)).isSome ↔ _
    rw [userGamesFold_keys, alookup_deleted_userGames]
    simp
  · intro k t
    rcases hdicho k with h | h <;> rw [h]
    · exact Or.inl rfl
    · exact Or.inr rfl

/-- C6 witness: replacing user `"u"`'s library in `libDb` (apps 1 and 2)
with the single app 3 leaves a `user_games` key for app 3 and none for the
old app 1. -/
theorem c6_witness :
    ((alookup ("u", 3)
        (cacheUserLibrary "u"
          [{ appid := 3, name := "C", playtime_forever := 1,
             playtime_2weeks := none, rtime_last_played := none }]
          500 libDb).userGames).isSome ↔
      3 ∈ ([{ appid := 3, name := "C", playtime_forever := 1,
              playtime_2weeks := none, rtime_last_played := none }] :
            List GameInput).map GameInput.appid) ∧
    ((alookup ("u", 1)
        (cacheUserLibrary "u"
          [{ appid := 3, name := "C", playtime_forever := 1,
             playtime_2weeks := none, rtime_last_played := none }]
          500 libDb).userGames).isSome ↔
      1 ∈ ([{ appid := 3, name := "C", playtime_forever := 1,
              playtime_2weeks := none, rtime_last_played := none }] :
            List GameInput).map GameInput.appid) :=
  ⟨(c6_library_replace_atomicity "u"
      [{ appid := 3, name := "C", playtime_forever := 1,
         playtime_2weeks := none, rtime_last_played := none }] 500 libDb).2.1 3,
   (c6_library_replace_atomicity "u"
      [{ appid := 3, name := "C", playtime_forever := 1,
         playtime_2weeks := none, rtime_last_played := none }] 500 libDb).2.1 1⟩

/-- C10: `cacheUserLibrary` never overwrites a non-empty stored game name —
any `games` row with a non-empty name keeps exactly that name — and the
supplied name is written precisely when the row is absent (fresh insert) or
its stored name is empty. -/
theorem c10_library_name_protection (steamId : String) (gs : List GameInput)
    (now : Nat) (db : Db) :
    (∀ (a : Nat) (r : GameRow), alookup a db.games = some r → r.name ≠ "" →
      (alookup a (cacheUserLibrary steamId gs now db).games).map GameRow.name
        = some r.name) ∧
    (∀ g : GameInput,
      (alookup g.appid db.games = none →
        (alookup g.appid (cacheUserLibrary steamId [g] now db).games).map
          GameRow.name = some g.name) ∧
      (∀ r : GameRow, alookup g.appid db.games = some r → r.name = "" →
        (alookup g.appid (cacheUserLibrary steamId [g] now db).games).map
          GameRow.name = some g.name)) := by
  constructor
  · intro a r hr hne
    rw [cacheUserLibrary_eq]
    show (alookup a (gamesFold now gs db.games)).map GameRow.name = _
    rw [gamesFold_preserve now gs db.games a r hr hne]
    rfl
  · intro g
    constructor
    · intro hnone
      rw [cacheUserLibrary_eq]
      show (alookup g.appid (gamesFold now [g] db.games)).map GameRow.name = _
      show (alookup g.appid (upsertRow g.appid (gameStubOf g.name now) _
        db.games)).map GameRow.name = _
      rw [alookup_upsertRow_self]
      simp only [hnone]
      rfl
    · intro r hr hempty
      rw [cacheUserLibrary_eq]
      show (alookup g.appid (gamesFold now [g] db.games)).map GameRow.name = _
      show (alookup g.appid (upsertRow g.appid (gameStubOf g.name now) _
        db.games)).map GameRow.name = _
      rw [alookup_upsertRow_self]
      simp only [hr]
      simp [hempty]

/-- C10 witness: syncing a library that calls app 1 `"Other"` does not
disturb the stored non-empty name `"Half-Life"` in `c1Db`. -/
theorem c10_witness :
    (alookup 1 (cacheUserLibrary "u"
        [{ appid := 1, name := "Other", playtime_forever := 5,
           playtime_2weeks := none, rtime_last_played := none }]
        0 c1Db).games).map GameRow.name = some "Half-Life" :=
  (c10_library_name_protection "u"
      [{ appid := 1, name := "Other", playtime_forever := 5,
         playtime_2weeks := none, rtime_last_played := none }] 0 c1Db).1
    1 halfLifeRow rfl (by decide)

theorem innerFold_error (sid : String) (entries : List (String × LegacyEntry))
    (nowStr : String) :
    entries.foldl
        (fun (acc' : Except Unit (List ((String × Nat) × StatusRow))) entry =>
          acc'.bind (insertLegacyStatus sid entry.2 nowStr))
        (.error ())
      = .error () := by
  induction entries with
  | nil => rfl
  | cons e rest ih =>
      rw [List.foldl_cons]
      exact ih

theorem innerFold_ok (sid : String) (entries : List (String × LegacyEntry))
    (nowStr : String) (tbl : List ((String × Nat) × StatusRow))
    (h : ∀ e ∈ entries, validStatus e.2.status = true) :
    entries.foldl
        (fun (acc' : Except Unit (List ((String × Nat) × StatusRow))) entry =>
          acc'.bind (insertLegacyStatus sid entry.2 nowStr))
        (.ok tbl)
      = .ok (entries.foldl
          (fun acc' entry =>
            upsertRow (sid, entry.2.appid) (legacyRowOf entry.2 nowStr)
              (fun _ => legacyRowOf entry.2 nowStr) acc')
          tbl) := by
  induction entries generalizing tbl with
  | nil => rfl
  | cons e rest ih =>
      rw [List.foldl_cons, List.foldl_cons]
      have hv := h e (List.mem_cons_self _ _)
      have hstep : (Except.ok tbl).bind (insertLegacyStatus sid e.2 nowStr)
          = .ok (upsertRow (sid, e.2.appid) (legacyRowOf e.2 nowStr)
              (fun _ => legacyRowOf e.2 nowStr) tbl) := by
        show insertLegacyStatus sid e.2 nowStr tbl = _
        simp [insertLegacyStatus, hv]
      rw [hstep]
      exact ih _ (fun e' he' => h e' (List.mem_cons_of_mem _ he'))

theorem innerFold_error_of_invalid (sid : String)
    (entries : List (String × LegacyEntry)) (nowStr : String)
    (acc : Except Unit (List ((String × Nat) × StatusRow)))
    (h : ∃ e ∈ entries, validStatus e.2.status = false) :
    entries.foldl
        (fun (acc' : Except Unit (List ((String × Nat) × StatusRow))) entry =>
          acc'.bind (insertLegacyStatus sid entry.2 nowStr))
        acc
      = .error () := by
  induction entries generalizing acc with
  | nil => simp at h
  | cons e rest ih =>
      rcases h with ⟨e', he', hv⟩
      rcases List.mem_cons.1 he' with rfl | hmem
      · have h1 : acc.bind (insertLegacyStatus sid e'.2 nowStr) = .error () := by
          cases acc with
          | error u => cases u; rfl
          | ok tbl =>
              show insertLegacyStatus sid e'.2 nowStr tbl = _
              simp [insertLegacyStatus, hv]
        rw [List.foldl_cons, h1]
        exact innerFold_error sid rest nowStr
      · rw [List.foldl_cons]
        exact ih _ ⟨e', hmem, hv⟩

theorem outerFold_error (store : LegacyStore) (nowStr : String) :
    store.foldl
        (fun (acc : Except Unit (List ((String × Nat) × StatusRow)))
            (user : String × List (String × LegacyEntry)) =>
          user.2.foldl
            (fun acc' entry => acc'.bind (insertLegacyStatus user.1 entry.2 nowStr))
            acc)
        (.error ())
      = .error () := by
  induction store with
  | nil => rfl
  | cons u rest ih =>
      rw [List.foldl_cons, innerFold_error]
      exact ih

theorem runMigrate_error_of_invalid (store : LegacyStore) (nowStr : String)
    (tbl : List ((String × Nat) × StatusRow))
    (h : ∃ u ∈ store, ∃ e ∈ u.2, validStatus e.2.status = false) :
    runMigrate store nowStr tbl = .error () := by
  unfold runMigrate
  generalize hacc : (Except.ok tbl :
    Except Unit (List ((String × Nat) × StatusRow))) = acc
  clear hacc
  induction store generalizing acc with
  | nil => simp at h
  | cons u rest ih =>
      rcases h with ⟨u', hu', e', he', hv⟩
      rcases List.mem_cons.1 hu' with rfl | hmem
      · rw [List.foldl_cons,
          innerFold_error_of_invalid u'.1 u'.2 nowStr acc ⟨e', he', hv⟩]
        exact outerFold_error rest nowStr
      · rw [List.foldl_cons]
        exact ih ⟨u', hmem, e', he', hv⟩ _

theorem runMigrate_ok_of_allValid (store : LegacyStore) (nowStr : String)
    (tbl : List ((String × Nat) × StatusRow))
    (h : ∀ u ∈ store, ∀ e ∈ u.2, validStatus e.2.status = true) :
    runMigrate store nowStr tbl = .ok (runMigrateOk store nowStr tbl) := by
  unfold runMigrate runMigrateOk
  induction store generalizing tbl with
  | nil => rfl
  | cons u rest ih =>
      rw [List.foldl_cons, List.foldl_cons,
        innerFold_ok u.1 u.2 nowStr tbl (h u (List.mem_cons_self _ _))]
      exact ih _ (fun u' hu' => h u' (List.mem_cons_of_mem _ hu'))

theorem migrateFromJson_migrated (nowStr : String) (s : ProcState) :
    (migrateFromJson nowStr s).migrated = s.migrated := by
  unfold migrateFromJson
  cases hf : s.legacyFile with
  | none => rfl
  | some o =>
      cases o with
      | none => rfl
      | some store =>
          cases hrm : runMigrate store nowStr s.db.gameStatuses with
          | error u => simp [hrm]
          | ok tbl => simp [hrm]

/-- C2, counterexample: on `c2Store` (one valid record for app 10, one
check-constraint-violating record for app 11) the migration commits
*nothing* — the valid record is absent from `game_statuses` afterwards — and
the legacy file is left unrenamed, contradicting the claimed partial
commit. -/
theorem c2_counterexample :
    alookup ("u", 10) (migrateFromJson "now" c2State).db.gameStatuses = none ∧
      (migrateFromJson "now" c2State).legacyFile = some (some c2Store) := by
  constructor <;> rfl

/-- C2, amended: the `migrate` transaction is all-or-nothing.  If any record
violates the `status` check constraint, the whole transaction rolls back —
no record (valid or not) is committed, and the legacy file stays in place
unrenamed.  Only when every record is valid does the transaction commit all
of them (in iteration order) and rename the file to `.bak`. -/
theorem c2_migration_all_or_nothing (store : LegacyStore) (nowStr : String)
    (s : ProcState) (hfile : s.legacyFile = some (some store)) :
    ((∃ u ∈ store, ∃ e ∈ u.2, validStatus e.2.status = false) →
      migrateFromJson nowStr s = s) ∧
    ((∀ u ∈ store, ∀ e ∈ u.2, validStatus e.2.status = true) →
      migrateFromJson nowStr s =
        { s with
          db := { s.db with
            gameStatuses := runMigrateOk store nowStr s.db.gameStatuses },
          legacyFile := none,
          legacyBak := some (some store) }) := by
  constructor
  · intro h
    unfold migrateFromJson
    simp only [hfile, runMigrate_error_of_invalid store nowStr _ h]
  · intro h
    unfold migrateFromJson
    simp only [hfile, runMigrate_ok_of_allValid store nowStr _ h]

/-- C2 witness: on the all-valid one-record store `c2OkStore` the migration
commits the record and renames the file. -/
theorem c2_witness :
    migrateFromJson "t" c2OkState =
      { c2OkState with
        db := { c2OkState.db with
          gameStatuses := runMigrateOk c2OkStore "t" c2OkState.db.gameStatuses },
        legacyFile := none,
        legacyBak := some (some c2OkStore) } :=
  (c2_migration_all_or_nothing c2OkStore "t" c2OkState rfl).2 (by decide)

/-- C9: `ensureMigrated` is idempotent — a second call in the same process
changes nothing (so no rows are duplicated and a renamed file is never
re-processed) — and on a corrupt (unparseable) legacy file it returns
normally (the model is a total function; the catch swallows the parse
error) leaving the file in place, unrenamed, and the database untouched. -/
theorem c9_migration_idempotence (nowStr : String) (s : ProcState) :
    ensureMigrated nowStr (ensureMigrated nowStr s) = ensureMigrated nowStr s ∧
    (s.legacyFile = some none →
      (ensureMigrated nowStr s).legacyFile = some none ∧
      (ensureMigrated nowStr s).legacyBak = s.legacyBak ∧
      (ensureMigrated nowStr s).db = s.db) := by
  have hid : ∀ t : ProcState, t.migrated = true →
      ensureMigrated nowStr t = t := by
    intro t ht
    simp [ensureMigrated, ht]
  constructor
  · by_cases hm : s.migrated
    · have h1 : ensureMigrated nowStr s = s := hid s hm
      rw [h1, h1]
    · have h1 : ensureMigrated nowStr s =
          migrateFromJson nowStr { s with migrated := true } := by
        simp [ensureMigrated, hm]
      have h2 : (ensureMigrated nowStr s).migrated = true := by
        rw [h1, migrateFromJson_migrated]
      exact hid _ h2
  · intro hf
    by_cases hm : s.migrated
    · have h1 : ensureMigrated nowStr s = s := by
        simp [ensureMigrated, hm]
      rw [h1]
      exact ⟨hf, rfl, rfl⟩
    · have h1 : ensureMigrated nowStr s =
          migrateFromJson nowStr { s with migrated := true } := by
        simp [ensureMigrated, hm]
      have h2 : migrateFromJson nowStr { s with migrated := true } =
          { s with migrated := true } := by
        unfold migrateFromJson
        simp only [hf]
      rw [h1, h2]
      exact ⟨hf, rfl, rfl⟩

/-- C9 witness: on the corrupt-file state the run leaves the file, the
`.bak` slot and the database untouched. -/
theorem c9_witness :
    (ensureMigrated "t" corruptState).legacyFile = some none ∧
      (ensureMigrated "t" corruptState).legacyBak = corruptState.legacyBak ∧
      (ensureMigrated "t" corruptState).db = corruptState.db :=
  (c9_migration_idempotence "t" corruptState).2 rfl

end SteamRec
